import Mathlib

/-!
Shallow embedding of the TaskFlow frontend (`src/frontend/app.js`) and proofs
about its specified behaviour.  The embedding translates the client-side
state/synchronization/render engine: the in-memory store (`state`), the API
request helpers (`fetchJSON`, `apiGetTasks`, …), the render-time filter
(`renderTaskList`), the form/modal handlers, and the HTML escaping helper
(`escHtml`).  Network calls are modelled by an oracle
`Net : Request → Except String (Option (List Task))` (the optional task list is
only consulted by the list endpoint; `none` models a response envelope without
a `data.tasks` field, which the code defaults to `[]`).  Date formatting and
timezone conversion (`formatDate`, `isOverdue`, `new Date(...)`) are opaque to
the client logic and are abstracted as environment functions.
-/

namespace TaskFlow

/-- A task as mirrored from the server (`TaskOut`).  `status` and `priority`
are strings in the JS code (`"todo" | "in_progress" | "done"`,
`"low" | "medium" | "high"`); the embedding keeps them as strings because the
filter logic compares them with string equality. -/
structure Task where
  id : Nat
  title : String
  description : Option String
  status : String
  priority : String
  is_completed : Bool
  due_date : Option String
deriving DecidableEq

/-- The module-level mutable `state` object of app.js (section 2 STATE). -/
structure ClientState where
  tasks : List Task
  activeStatus : String
  activePriority : String
  editingId : Option Nat
  pendingDeleteId : Option Nat
deriving DecidableEq

/-- The DOM fields the handlers read and write (form inputs, validation marks,
the task-list area as its innerHTML string, modal visibility, spinner). -/
structure Dom where
  taskListHtml : String
  emptyStateHidden : Bool
  badgeText : String
  titleValue : String
  descriptionValue : String
  priorityValue : String
  dueDateValue : String
  taskIdValue : String
  titleInvalid : Bool
  titleErrorShown : Bool
  titleFocused : Bool
  modalShown : Bool
  loadingShown : Bool
  submitDisabled : Bool
deriving DecidableEq

/-- The payload object built by `readForm`. -/
structure Payload where
  title : String
  description : Option String
  priority : String
  due_date : Option String
deriving DecidableEq

/-- One HTTP request issued through the CRUD wrappers.  The list request
carries its query parameters as an association list (from `URLSearchParams`). -/
inductive Request where
  | getTasks (query : List (String × String))
  | createTask (payload : Payload)
  | updateTask (id : Nat) (payload : Payload)
  | completeTask (id : Nat)
  | deleteTask (id : Nat)
deriving DecidableEq

/-- Observable side effects of a handler, in the order they happen:
issuing a request, showing a toast, clearing the task-list area
(`setLoading(true)` does `DOM.taskList.innerHTML = ""`), and rendering the
filtered list into the task-list area. -/
inductive Eff where
  | request (r : Request)
  | toast (message kind : String)
  | clearList
  | render (html : String)
deriving DecidableEq

/-- Network oracle: the outcome each request would get from the server.
`Except.error msg` is a rejected promise / thrown error with message `msg`;
on success the optional task list is what `res.data?.tasks` decodes to
(only the list endpoint looks at it). -/
def Net : Type := Request → Except String (Option (List Task))

/-- Abstracted browser environment for date handling:
`fmtDate` models `formatDate` on a present ISO string (locale rendering),
`overdue` models `isOverdue` on a present ISO string (comparison with the
current time), `toIso` models `new Date(v).toISOString()` for the due-date
input value, and `toLocalInput` models the datetime-local conversion in
`populateForm`. -/
structure RenderEnv where
  fmtDate : String → String
  overdue : String → Bool
  toIso : String → String
  toLocalInput : String → String

/-! ### API helpers (app.js section 4) -/

/-- A decoded JSON object, reduced to the fields the client inspects: the
`detail` field used for error messages, plus an opaque remainder so that
distinct bodies stay distinct. -/
structure JsonObj where
  detail : Option String
  rest : List (String × String)
deriving DecidableEq

/-- The empty object `\x7b\x7d` substituted by `res.json().catch(() => (\x7b\x7d))`. -/
def JsonObj.empty : JsonObj := ⟨none, []⟩

/-- An HTTP response as seen by `fetchJSON`: status, status text, and the
JSON body (`none` = the body is malformed and `res.json()` rejects). -/
structure HttpResp where
  status : Nat
  statusText : String
  jsonBody : Option JsonObj
deriving DecidableEq

/-- Embedding of `res.ok` per the fetch specification: status in the range 200–299. -/
def HttpResp.respOk (r : HttpResp) : Bool :=
  decide (200 ≤ r.status) && decide (r.status ≤ 299)

/-- Result of `fetchJSON`: either the parsed body or a thrown error message. -/
inductive FetchOutcome where
  | success (body : JsonObj)
  | failure (message : String)
deriving DecidableEq

/-- The generic message `HTTP <status>: <statusText>`. -/
def httpGenericMsg (r : HttpResp) : String :=
  "HTTP " ++ toString r.status ++ ": " ++ r.statusText

/-- Embedding of `fetchJSON` (app.js lines 98–115): parse the body, mapping a
parse failure to the empty object; on `res.ok` return the data; otherwise
throw `data?.detail || generic` (JS `||`: an absent or empty `detail` string
falls back to the generic message). -/
def fetchJSON (res : HttpResp) : FetchOutcome :=
  let data := res.jsonBody.getD JsonObj.empty
  if res.respOk then
    .success data
  else
    .failure (match data.detail with
      | some d => if d = "" then httpGenericMsg res else d
      | none => httpGenericMsg res)

/-- The query parameters built by `apiGetTasks` (app.js lines 119–125):
`status` is set when truthy and not `"all"`; likewise `priority`. -/
def apiGetTasksQuery (status priority : String) : List (String × String) :=
  (if status ≠ "" ∧ status ≠ "all" then [("status", status)] else []) ++
  (if priority ≠ "" ∧ priority ≠ "all" then [("priority", priority)] else [])

/-! ### Render helpers (app.js section 5) -/

/-- Embedding of `statusChip`: display label and chip class for a status string, with the
`?? \x7blabel: status, cls: ""\x7d` fallback. -/
def statusChip (status : String) : String × String :=
  if status = "todo" then ("To Do", "chip-todo")
  else if status = "in_progress" then ("In Progress", "chip-in_progress")
  else if status = "done" then ("Done", "chip-done")
  else (status, "")

/-- Embedding of `priorityChip`: display label and chip class for a priority string. -/
def priorityChip (priority : String) : String × String :=
  if priority = "low" then ("🟢 Low", "chip-low")
  else if priority = "medium" then ("🟡 Medium", "chip-medium")
  else if priority = "high" then ("🔴 High", "chip-high")
  else (priority, "")

/-- The double-quote character (U+0022), kept as a named constant so the
escape table below stays readable. -/
def quotCh : Char := Char.ofNat 34

/-- The single-quote / apostrophe character (U+0027). -/
def aposCh : Char := Char.ofNat 39

/-- One `String.prototype.replace(/c/g, r)` pass with a single-character
pattern, on the character-list view of the string. -/
def replaceChar (c : Char) (r : List Char) : List Char → List Char
  | [] => []
  | x :: xs => (if x = c then r else [x]) ++ replaceChar c r xs

/-- The five chained replacements of `escHtml` (app.js 508–516), in source
order: `&` first, then `<`, `>`, `"`, and the apostrophe. -/
def escHtmlList (l : List Char) : List Char :=
  replaceChar aposCh ("&#39;".toList)
    (replaceChar quotCh ("&quot;".toList)
      (replaceChar '>' ("&gt;".toList)
        (replaceChar '<' ("&lt;".toList)
          (replaceChar '&' ("&amp;".toList) l))))

/-- Embedding of `escHtml`: a falsy (empty) string maps to `""`, otherwise
the five replacements are applied. -/
def escHtml (s : String) : String :=
  if s = "" then "" else String.mk (escHtmlList s.toList)

/-- Per-character escape table; `escHtmlList` is proved below to coincide
with mapping this table over the input (the chained replacements never
disturb each other because no produced entity contains a character that a
later pass replaces). -/
def escChar (x : Char) : List Char :=
  if x = '&' then "&amp;".toList
  else if x = '<' then "&lt;".toList
  else if x = '>' then "&gt;".toList
  else if x = quotCh then "&quot;".toList
  else if x = aposCh then "&#39;".toList
  else [x]

/-- Lemma: `startsWithL p l`: the character list `p` begins the character list `l`. -/
def startsWithL : List Char → List Char → Bool
  | [], _ => true
  | _ :: _, [] => false
  | p :: ps, x :: xs => p == x && startsWithL ps xs

/-- The five entities `escHtml` can produce. -/
def htmlEntities : List (List Char) :=
  ["&amp;".toList, "&lt;".toList, "&gt;".toList, "&quot;".toList, "&#39;".toList]

/-- Every ampersand in the list begins an occurrence of one of the five
entities. -/
def ampOkB : List Char → Bool
  | [] => true
  | x :: xs =>
    (x != '&' || htmlEntities.any (fun e => startsWithL e (x :: xs))) && ampOkB xs

/-- The four characters that must never appear raw in escaped output. -/
def rawSpecial (c : Char) : Bool :=
  c == '<' || c == '>' || c == quotCh || c == aposCh

/-- The render-time filter predicate inside `renderTaskList` (app.js 240–244):
a task passes when (`activeStatus` is `"all"` or equals its `status`) and
(`activePriority` is `"all"` or equals its `priority`). -/
def taskMatchesFilters (activeStatus activePriority : String) (t : Task) : Bool :=
  (activeStatus == "all" || t.status == activeStatus) &&
  (activePriority == "all" || t.priority == activePriority)

/-- Embedding of `const filtered = state.tasks.filter(...)` — the derived view. -/
def filteredTasks (activeStatus activePriority : String) (tasks : List Task) : List Task :=
  tasks.filter (taskMatchesFilters activeStatus activePriority)

/-- The task-card template (app.js 192–234) with the two escaped user-string
interpolations — `escHtml(task.title)` and the description block — abstracted
as the arguments `escTitle` and `descBlock`.  All other interpolations
(`task.id`, chip labels/classes, the formatted due date) are taken from the
task and environment exactly as in the source; template whitespace is
normalized to single newlines. -/
def cardBody (env : RenderEnv) (t : Task) (escTitle descBlock : String) : String :=
  let sc := statusChip t.status
  let pc := priorityChip t.priority
  let doneClass := if t.is_completed then " is-done" else ""
  let dueTxt := match t.due_date with | none => "" | some iso => env.fmtDate iso
  let overdueCls :=
    if (match t.due_date with | none => false | some iso => env.overdue iso)
        && !t.is_completed then " overdue" else ""
  "<li class=\"task-card" ++ doneClass ++ "\" data-task-id=\"" ++ toString t.id ++
    "\" role=\"listitem\">\n" ++
  "<div class=\"task-card-top\">\n<h3 class=\"task-title\">" ++ escTitle ++
    "</h3>\n</div>\n" ++
  descBlock ++
  "<div class=\"task-meta\">\n<span class=\"chip " ++ sc.2 ++ "\">" ++ sc.1 ++
    "</span>\n<span class=\"chip " ++ pc.2 ++ "\">" ++ pc.1 ++ "</span>\n" ++
  (if dueTxt = "" then "" else
    "<span class=\"task-due" ++ overdueCls ++ "\" title=\"Due date\">📅 " ++ dueTxt ++
      (if overdueCls = "" then "" else " (overdue)") ++ "</span>\n") ++
  "</div>\n<div class=\"task-actions\">\n" ++
  (if t.is_completed then "" else
    "<button class=\"btn btn-icon btn-ghost btn-complete\" data-id=\"" ++ toString t.id ++
      "\" title=\"Mark complete\" aria-label=\"Mark task complete\">✓ Complete</button>\n") ++
  "<button class=\"btn btn-icon btn-ghost btn-edit\" data-id=\"" ++ toString t.id ++
    "\" title=\"Edit task\" aria-label=\"Edit task\">✏ Edit</button>\n" ++
  "<button class=\"btn btn-icon btn-danger btn-delete\" data-id=\"" ++ toString t.id ++
    "\" title=\"Delete task\" aria-label=\"Delete task\">🗑 Delete</button>\n</div>\n</li>"

/-- Embedding of `buildCard`: the title is always interpolated through `escHtml`; the
description block is emitted only for a truthy (present, non-empty)
description and its text also passes through `escHtml`. -/
def buildCard (env : RenderEnv) (t : Task) : String :=
  cardBody env t (escHtml t.title)
    (match t.description with
     | some dsc =>
        if dsc = "" then ""
        else "<p class=\"task-description\">" ++ escHtml dsc ++ "</p>\n"
     | none => "")

/-- The icon chosen by `showToast` with the `?? "ℹ"` fallback. -/
def toastIcon (type : String) : String :=
  if type = "success" then "✓"
  else if type = "error" then "✕"
  else if type = "info" then "ℹ"
  else "ℹ"

/-- The innerHTML assembled by `showToast` (app.js 492–503): the icon span
followed by the message interpolated through `escHtml`. -/
def toastHtml (type message : String) : String :=
  "<span class=\"toast-icon\">" ++ toastIcon type ++ "</span>" ++ escHtml message

/-- Embedding of `String.prototype.trim`: drop leading and trailing whitespace.  Defined
on the character-list view so that concrete instances evaluate by kernel
reduction. -/
def jsTrim (s : String) : String :=
  String.mk
    (((s.toList.dropWhile Char.isWhitespace).reverse.dropWhile
        Char.isWhitespace).reverse)

/-! ### Render and data loading (app.js sections 5–6) -/

/-- Embedding of `renderTaskList` (app.js 239–258): filter `state.tasks` by the active
filters, write the joined cards into the list area, toggle the empty state,
and update the count badge. -/
def renderTaskList (env : RenderEnv) (s : ClientState) (d : Dom) : Dom × List Eff :=
  let filtered := filteredTasks s.activeStatus s.activePriority s.tasks
  let html := String.join (filtered.map (buildCard env))
  ({ d with
      taskListHtml := html,
      emptyStateHidden := filtered.length != 0,
      badgeText := toString s.tasks.length ++ " task" ++
        (if s.tasks.length != 1 then "s" else "") },
   [Eff.render html])

/-- Embedding of `loadTasks` (app.js 268–282): `setLoading(true)` (spinner on, list area
cleared), issue the list request with the active filters, on success replace
`state.tasks` wholesale and re-render, on failure toast the error; finally
`setLoading(false)`. -/
def loadTasks (env : RenderEnv) (net : Net) (s : ClientState) (d : Dom) :
    ClientState × Dom × List Eff :=
  let d1 := { d with loadingShown := true, taskListHtml := "" }
  let req := Request.getTasks (apiGetTasksQuery s.activeStatus s.activePriority)
  match net req with
  | .ok data =>
      let s1 := { s with tasks := data.getD [] }
      let (d2, es) := renderTaskList env s1 d1
      (s1, { d2 with loadingShown := false },
        Eff.clearList :: Eff.request req :: es)
  | .error msg =>
      (s, { d1 with loadingShown := false },
        [Eff.clearList, Eff.request req,
         Eff.toast ("Failed to load tasks: " ++ msg) "error"])

/-! ### Form handlers (app.js section 7) -/

/-- Embedding of `clearValidation` (app.js 312–315). -/
def clearValidation (d : Dom) : Dom :=
  { d with titleInvalid := false, titleErrorShown := false }

/-- Embedding of `readForm` (app.js 292–310): trim the title; an empty result marks the
field invalid, shows the error text, focuses the title input and yields no
payload; otherwise validation marks are cleared and the payload is built
(empty description becomes `null`, empty due date becomes `null`, otherwise
the due date is converted to an ISO timestamp). -/
def readForm (env : RenderEnv) (d : Dom) : Option Payload × Dom :=
  let title := jsTrim d.titleValue
  if title = "" then
    (none, { d with titleInvalid := true, titleErrorShown := true, titleFocused := true })
  else
    let due := d.dueDateValue
    (some
      { title := title,
        description := if jsTrim d.descriptionValue = "" then none
                       else some (jsTrim d.descriptionValue),
        priority := d.priorityValue,
        due_date := if due = "" then none else some (env.toIso due) },
     clearValidation d)

/-- The initial value the priority select returns to on `form.reset()`
(declared in index.html, outside the embedded file). -/
def priorityResetValue : String := "medium"

/-- Embedding of `resetForm` (app.js 318–327): reset the form fields, clear the hidden id,
leave edit mode (`state.editingId = null`), restore the create-mode labels,
and clear validation marks. -/
def resetForm (s : ClientState) (d : Dom) : ClientState × Dom :=
  ({ s with editingId := none },
   clearValidation
     { d with
        titleValue := "", descriptionValue := "", dueDateValue := "",
        priorityValue := priorityResetValue, taskIdValue := "" })

/-- Embedding of `populateForm` (app.js 330–354): enter edit mode for `task`, fill every
field from its current values (the due timestamp converted to the local
input representation, blank when absent), and focus the title. -/
def populateForm (env : RenderEnv) (task : Task) (s : ClientState) (d : Dom) :
    ClientState × Dom :=
  ({ s with editingId := some task.id },
   { d with
      taskIdValue := toString task.id,
      titleValue := task.title,
      descriptionValue := task.description.getD "",
      priorityValue := task.priority,
      dueDateValue := match task.due_date with
        | some iso => env.toLocalInput iso
        | none => "",
      titleFocused := true })

/-- Embedding of `handleFormSubmit` (app.js 357–378): read/validate the form (a `null`
payload aborts with no request); otherwise disable the submit button, issue
an update request for `state.editingId` when present, else a create request;
on success toast success, `resetForm()`, and reload; on failure toast the
error; finally re-enable the submit button. -/
def handleFormSubmit (env : RenderEnv) (net : Net) (s : ClientState) (d : Dom) :
    ClientState × Dom × List Eff :=
  match readForm env d with
  | (none, d1) => (s, d1, [])
  | (some payload, d1) =>
    let d2 := { d1 with submitDisabled := true }
    let req := match s.editingId with
      | some id => Request.updateTask id payload
      | none => Request.createTask payload
    let okMsg := match s.editingId with
      | some _ => "Task updated successfully! ✓"
      | none => "Task created! ✓"
    match net req with
    | .ok _ =>
        let (s1, d3) := resetForm s d2
        let (s2, d4, es) := loadTasks env net s1 d3
        (s2, { d4 with submitDisabled := false },
          Eff.request req :: Eff.toast okMsg "success" :: es)
    | .error msg =>
        (s, { d2 with submitDisabled := false },
          [Eff.request req, Eff.toast ("Error: " ++ msg) "error"])

/-! ### Task-list and modal handlers (app.js sections 8–9) -/

/-- Embedding of `handleComplete` (app.js 401–409): issue the complete request; on success
toast and reload, on failure toast the error. -/
def handleComplete (env : RenderEnv) (net : Net) (id : Nat)
    (s : ClientState) (d : Dom) : ClientState × Dom × List Eff :=
  match net (Request.completeTask id) with
  | .ok _ =>
      let (s1, d1, es) := loadTasks env net s d
      (s1, d1,
        Eff.request (Request.completeTask id) ::
          Eff.toast "Task marked as done! 🎉" "success" :: es)
  | .error msg =>
      (s, d,
        [Eff.request (Request.completeTask id),
         Eff.toast ("Could not complete task: " ++ msg) "error"])

/-- Embedding of `handleEdit` (app.js 411–415): look the task up in the local snapshot;
toast an error on a miss, otherwise populate the form. -/
def handleEdit (env : RenderEnv) (id : Nat) (s : ClientState) (d : Dom) :
    ClientState × Dom × List Eff :=
  match s.tasks.find? (fun t => t.id == id) with
  | none => (s, d, [Eff.toast "Task not found in local state." "error"])
  | some task =>
      let (s1, d1) := populateForm env task s d
      (s1, d1, [])

/-- Embedding of `openDeleteModal` (app.js 421–424): arm the gate for `id` and show the
modal. -/
def openDeleteModal (id : Nat) (s : ClientState) (d : Dom) :
    ClientState × Dom × List Eff :=
  ({ s with pendingDeleteId := some id }, { d with modalShown := true }, [])

/-- Embedding of `closeDeleteModal` (app.js 426–429): disarm the gate and hide the modal. -/
def closeDeleteModal (s : ClientState) (d : Dom) : ClientState × Dom × List Eff :=
  ({ s with pendingDeleteId := none }, { d with modalShown := false }, [])

/-- Embedding of `confirmDelete` (app.js 431–442): capture the armed id (a falsy id — no
pending id, or the JS number 0 — aborts), close the modal first, then issue
the delete request for the captured id; on success toast and reload, on
failure toast the error. -/
def confirmDelete (env : RenderEnv) (net : Net) (s : ClientState) (d : Dom) :
    ClientState × Dom × List Eff :=
  match s.pendingDeleteId with
  | none => (s, d, [])
  | some id =>
    if id = 0 then (s, d, [])
    else
      let s0 := { s with pendingDeleteId := none }
      let d0 := { d with modalShown := false }
      match net (Request.deleteTask id) with
      | .ok _ =>
          let (s1, d1, es) := loadTasks env net s0 d0
          (s1, d1,
            Eff.request (Request.deleteTask id) ::
              Eff.toast "Task deleted." "info" :: es)
      | .error msg =>
          (s0, d0,
            [Eff.request (Request.deleteTask id),
             Eff.toast ("Could not delete task: " ++ msg) "error"])

/-! ### Filter handlers and dispatch (app.js sections 10 and 12) -/

/-- Embedding of `handleStatusPillClick` (app.js 448–462): set the active status filter
and re-render without a reload. -/
def handleStatusPillClick (env : RenderEnv) (v : String) (s : ClientState) (d : Dom) :
    ClientState × Dom × List Eff :=
  let s1 := { s with activeStatus := v }
  let (d1, es) := renderTaskList env s1 d
  (s1, d1, es)

/-- Embedding of `handlePriorityFilterChange` (app.js 464–467). -/
def handlePriorityFilterChange (env : RenderEnv) (v : String) (s : ClientState) (d : Dom) :
    ClientState × Dom × List Eff :=
  let s1 := { s with activePriority := v }
  let (d1, es) := renderTaskList env s1 d
  (s1, d1, es)

/-- The user/DOM events wired in `init` (app.js 522–560).  Clicks inside the
task list are pre-resolved to the button they hit (`handleTaskListClick`);
`overlayClick` records whether the click target was the overlay itself. -/
inductive Event where
  | formSubmit
  | cancelEdit
  | completeClick (id : Nat)
  | editClick (id : Nat)
  | deleteClick (id : Nat)
  | statusPill (v : String)
  | priorityChange (v : String)
  | refreshClick
  | modalCancel
  | modalConfirm
  | overlayClick (onOverlay : Bool)
  | escapeKey
  | initialLoad
deriving DecidableEq

/-- The event dispatcher assembled by `init`: one step of the application in
response to one event.  The Escape handler calls `closeDeleteModal` (the
modal element never carries the `hidden` attribute, so its guard always
passes). -/
def dispatch (env : RenderEnv) (net : Net) (e : Event) (s : ClientState) (d : Dom) :
    ClientState × Dom × List Eff :=
  match e with
  | .formSubmit => handleFormSubmit env net s d
  | .cancelEdit => let (s1, d1) := resetForm s d; (s1, d1, [])
  | .completeClick id => handleComplete env net id s d
  | .editClick id => handleEdit env id s d
  | .deleteClick id => openDeleteModal id s d
  | .statusPill v => handleStatusPillClick env v s d
  | .priorityChange v => handlePriorityFilterChange env v s d
  | .refreshClick => loadTasks env net s d
  | .modalCancel => closeDeleteModal s d
  | .modalConfirm => confirmDelete env net s d
  | .overlayClick onOverlay =>
      if onOverlay then closeDeleteModal s d else (s, d, [])
  | .escapeKey => closeDeleteModal s d
  | .initialLoad => loadTasks env net s d

/-! ### Spec-side definitions and concrete fixtures -/

/-- The matching predicate exactly as the spec words it (for claim C1):
a task matches the status filter `all` unconditionally, otherwise only if its
`status` field equals the filter value; same for priority; combined by AND. -/
def specMatches (fs fp : String) (t : Task) : Prop :=
  (fs = "all" ∨ t.status = fs) ∧ (fp = "all" ∨ t.priority = fp)

instance (fs fp : String) (t : Task) : Decidable (specMatches fs fp t) := by
  unfold specMatches; infer_instance

/-- Whether a fetch outcome is a thrown error. -/
def FetchOutcome.isFailure : FetchOutcome → Bool
  | .failure _ => true
  | .success _ => false

/-- Whether an effect is a create or update request (the two form-submit
mutations). -/
def isMutationReq : Eff → Bool
  | .request (.createTask _) => true
  | .request (.updateTask _ _) => true
  | _ => false

/-- The request `handleFormSubmit` issues for a given payload: an update for
the task being edited, else a create. -/
def submitRequest (s : ClientState) (payload : Payload) : Request :=
  match s.editingId with
  | some id => Request.updateTask id payload
  | none => Request.createTask payload

/-- The success toast text of `handleFormSubmit`, by mode. -/
def submitOkMsg (s : ClientState) : String :=
  match s.editingId with
  | some _ => "Task updated successfully! ✓"
  | none => "Task created! ✓"

/-- A concrete environment for closed evaluations: trivial date rendering,
nothing overdue, identity timestamp conversions. -/
def exEnv : RenderEnv := ⟨fun _ => "", fun _ => false, fun v => v, fun v => v⟩

/-- A network where every request succeeds and the list endpoint returns an
empty task list. -/
def netOkEmpty : Net := fun _ => Except.ok (some [])

/-- A network where every mutation succeeds but the list endpoint fails. -/
def netListFails : Net := fun r =>
  match r with
  | .getTasks _ => Except.error "boom"
  | _ => Except.ok none

/-- A network where the complete endpoint fails and everything else
succeeds. -/
def netCompleteFails : Net := fun r =>
  match r with
  | .completeTask _ => Except.error "down"
  | _ => Except.ok none

/-- A baseline DOM: empty form, hidden modal, no marks. -/
def dom0 : Dom :=
  ⟨"", true, "", "", "", "medium", "", "", false, false, false, false, false, false⟩

/-- A baseline client state: empty snapshot, both filters `all`, create mode,
gate idle. -/
def exState : ClientState := ⟨[], "all", "all", none, none⟩

/-! ### Helper lemmas -/

/-- The effect trace of `loadTasks`: clear the list area, issue the filtered
list request, then either render the fresh filtered view or toast the load
failure. -/
theorem loadTasks_effects (env : RenderEnv) (net : Net) (s : ClientState) (d : Dom) :
    (loadTasks env net s d).2.2 =
      Eff.clearList ::
      Eff.request (Request.getTasks (apiGetTasksQuery s.activeStatus s.activePriority)) ::
      (match net (Request.getTasks (apiGetTasksQuery s.activeStatus s.activePriority)) with
       | .ok data =>
          [Eff.render (String.join ((filteredTasks s.activeStatus s.activePriority
            (data.getD [])).map (buildCard env)))]
       | .error msg => [Eff.toast ("Failed to load tasks: " ++ msg) "error"]) := by
  cases hn : net (Request.getTasks (apiGetTasksQuery s.activeStatus s.activePriority)) <;>
    simp [loadTasks, renderTaskList, hn]

/-- The state after `loadTasks`: the snapshot is replaced on success and kept
on failure; no other state field changes. -/
theorem loadTasks_state (env : RenderEnv) (net : Net) (s : ClientState) (d : Dom) :
    (loadTasks env net s d).1 =
      (match net (Request.getTasks (apiGetTasksQuery s.activeStatus s.activePriority)) with
       | .ok data => { s with tasks := data.getD [] }
       | .error _ => s) := by
  cases hn : net (Request.getTasks (apiGetTasksQuery s.activeStatus s.activePriority)) <;>
    simp [loadTasks, renderTaskList, hn]

/-- Lemma: `loadTasks` never touches the delete gate. -/
theorem loadTasks_pending (env : RenderEnv) (net : Net) (s : ClientState) (d : Dom) :
    (loadTasks env net s d).1.pendingDeleteId = s.pendingDeleteId := by
  rw [loadTasks_state]
  cases net (Request.getTasks (apiGetTasksQuery s.activeStatus s.activePriority)) <;> rfl

/-- Any request appearing among `loadTasks` effects is the list request. -/
theorem loadTasks_request_eq (env : RenderEnv) (net : Net) (s : ClientState) (d : Dom)
    (r : Request) (h : Eff.request r ∈ (loadTasks env net s d).2.2) :
    r = Request.getTasks (apiGetTasksQuery s.activeStatus s.activePriority) := by
  rw [loadTasks_effects] at h
  cases hn : net (Request.getTasks (apiGetTasksQuery s.activeStatus s.activePriority)) <;>
    rw [hn] at h <;> simp_all

/-- Lemma: `loadTasks` leaves the list area exactly as the fresh render on success
and cleared on failure. -/
theorem loadTasks_dom_html (env : RenderEnv) (net : Net) (s : ClientState) (d : Dom) :
    (loadTasks env net s d).2.1.taskListHtml =
      (match net (Request.getTasks (apiGetTasksQuery s.activeStatus s.activePriority)) with
       | .ok data =>
          String.join ((filteredTasks s.activeStatus s.activePriority
            (data.getD [])).map (buildCard env))
       | .error _ => "") := by
  cases hn : net (Request.getTasks (apiGetTasksQuery s.activeStatus s.activePriority)) <;>
    simp [loadTasks, renderTaskList, hn]

/-- The effect trace of a valid form submission: the mode-selected mutation
request, then its toast, then (on success) the reload trace. -/
theorem handleFormSubmit_effects (env : RenderEnv) (net : Net) (s : ClientState)
    (d : Dom) (payload : Payload) (hrf : (readForm env d).1 = some payload) :
    (handleFormSubmit env net s d).2.2 =
      (match net (submitRequest s payload) with
       | .ok _ =>
          Eff.request (submitRequest s payload) ::
          Eff.toast (submitOkMsg s) "success" ::
          Eff.clearList ::
          Eff.request (Request.getTasks
            (apiGetTasksQuery s.activeStatus s.activePriority)) ::
          (match net (Request.getTasks
              (apiGetTasksQuery s.activeStatus s.activePriority)) with
           | .ok data =>
              [Eff.render (String.join ((filteredTasks s.activeStatus s.activePriority
                (data.getD [])).map (buildCard env)))]
           | .error msg => [Eff.toast ("Failed to load tasks: " ++ msg) "error"])
       | .error msg =>
          [Eff.request (submitRequest s payload),
           Eff.toast ("Error: " ++ msg) "error"]) := by
  rcases hr : readForm env d with ⟨op, d1⟩
  rw [hr] at hrf
  simp at hrf
  subst hrf
  unfold handleFormSubmit
  rw [hr]
  cases hed : s.editingId <;>
    cases hn : net (submitRequest s payload) <;>
      simp_all [submitRequest, submitOkMsg, loadTasks_effects, resetForm, clearValidation]

/-- The state after a valid form submission: unchanged on request failure;
on success edit mode is left and the snapshot is replaced by the reload
(kept as-is if the reload itself fails). -/
theorem handleFormSubmit_state (env : RenderEnv) (net : Net) (s : ClientState)
    (d : Dom) (payload : Payload) (hrf : (readForm env d).1 = some payload) :
    (handleFormSubmit env net s d).1 =
      (match net (submitRequest s payload) with
       | .ok _ =>
          (match net (Request.getTasks
              (apiGetTasksQuery s.activeStatus s.activePriority)) with
           | .ok data => { s with editingId := none, tasks := data.getD [] }
           | .error _ => { s with editingId := none })
       | .error _ => s) := by
  rcases hr : readForm env d with ⟨op, d1⟩
  rw [hr] at hrf
  simp at hrf
  subst hrf
  unfold handleFormSubmit
  rw [hr]
  cases hed : s.editingId <;>
    cases hn : net (submitRequest s payload) <;>
      cases hg : net (Request.getTasks
        (apiGetTasksQuery s.activeStatus s.activePriority)) <;>
      simp_all [submitRequest, submitOkMsg, loadTasks, renderTaskList, resetForm,
        clearValidation]

/-- The form fields after a successful submission are cleared. -/
theorem handleFormSubmit_dom_ok (env : RenderEnv) (net : Net) (s : ClientState)
    (d : Dom) (payload : Payload) (r : Option (List Task))
    (hrf : (readForm env d).1 = some payload)
    (hok : net (submitRequest s payload) = Except.ok r) :
    (handleFormSubmit env net s d).2.1.titleValue = "" ∧
    (handleFormSubmit env net s d).2.1.descriptionValue = "" ∧
    (handleFormSubmit env net s d).2.1.dueDateValue = "" ∧
    (handleFormSubmit env net s d).2.1.taskListHtml =
      (match net (Request.getTasks
          (apiGetTasksQuery s.activeStatus s.activePriority)) with
       | .ok data =>
          String.join ((filteredTasks s.activeStatus s.activePriority
            (data.getD [])).map (buildCard env))
       | .error _ => "") := by
  rcases hr : readForm env d with ⟨op, d1⟩
  rw [hr] at hrf
  simp at hrf
  subst hrf
  unfold handleFormSubmit
  rw [hr]
  cases hed : s.editingId <;>
    simp only [submitRequest, hed] at hok <;>
    cases hg : net (Request.getTasks
      (apiGetTasksQuery s.activeStatus s.activePriority)) <;>
    simp_all [submitRequest, loadTasks, renderTaskList, resetForm, clearValidation]

/-- The DOM after a failed form submission: only validation marks and the
submit-button flag change; in particular the list area is untouched. -/
theorem handleFormSubmit_dom_err (env : RenderEnv) (net : Net) (s : ClientState)
    (d : Dom) (payload : Payload) (m : String)
    (hrf : (readForm env d).1 = some payload)
    (herr : net (submitRequest s payload) = Except.error m) :
    (handleFormSubmit env net s d).2.1 =
      { d with titleInvalid := false, titleErrorShown := false,
               submitDisabled := false } := by
  rcases hr : readForm env d with ⟨op, d1⟩
  have hd1 : d1 = clearValidation d := by
    unfold readForm at hr
    by_cases ht : jsTrim d.titleValue = ""
    · exfalso
      unfold readForm at hrf
      simp [ht] at hrf
    · simp [ht, clearValidation] at hr
      exact hr.2.symm
  rw [hr] at hrf
  simp at hrf
  subst hrf
  unfold handleFormSubmit
  rw [hr]
  cases hed : s.editingId <;>
    simp only [submitRequest, hed] at herr <;>
    simp_all [submitRequest, clearValidation]

/-- The state and pending gate are preserved by `handleFormSubmit` except for
leaving edit mode and replacing the snapshot. -/
theorem handleFormSubmit_pending (env : RenderEnv) (net : Net) (s : ClientState)
    (d : Dom) :
    (handleFormSubmit env net s d).1.pendingDeleteId = s.pendingDeleteId := by
  rcases hr : readForm env d with ⟨op, d1⟩
  cases op with
  | none => unfold handleFormSubmit; rw [hr]
  | some payload =>
    have := handleFormSubmit_state env net s d payload (by rw [hr])
    rw [this]
    cases net (submitRequest s payload) with
    | error m => rfl
    | ok r =>
      cases net (Request.getTasks (apiGetTasksQuery s.activeStatus s.activePriority)) <;>
        rfl

/-- The effect trace of `handleComplete`. -/
theorem handleComplete_effects (env : RenderEnv) (net : Net) (i : Nat)
    (s : ClientState) (d : Dom) :
    (handleComplete env net i s d).2.2 =
      (match net (Request.completeTask i) with
       | .ok _ =>
          Eff.request (Request.completeTask i) ::
          Eff.toast "Task marked as done! 🎉" "success" ::
          Eff.clearList ::
          Eff.request (Request.getTasks
            (apiGetTasksQuery s.activeStatus s.activePriority)) ::
          (match net (Request.getTasks
              (apiGetTasksQuery s.activeStatus s.activePriority)) with
           | .ok data =>
              [Eff.render (String.join ((filteredTasks s.activeStatus s.activePriority
                (data.getD [])).map (buildCard env)))]
           | .error msg => [Eff.toast ("Failed to load tasks: " ++ msg) "error"])
       | .error msg =>
          [Eff.request (Request.completeTask i),
           Eff.toast ("Could not complete task: " ++ msg) "error"]) := by
  cases hn : net (Request.completeTask i) <;>
    simp [handleComplete, hn, loadTasks_effects]

/-- Lemma: `handleComplete` on a failed request returns everything unchanged apart
from the two trace entries. -/
theorem handleComplete_err (env : RenderEnv) (net : Net) (i : Nat)
    (s : ClientState) (d : Dom) (m : String)
    (herr : net (Request.completeTask i) = Except.error m) :
    handleComplete env net i s d =
      (s, d,
       [Eff.request (Request.completeTask i),
        Eff.toast ("Could not complete task: " ++ m) "error"]) := by
  simp [handleComplete, herr]

/-- Lemma: `handleComplete` preserves the delete gate. -/
theorem handleComplete_pending (env : RenderEnv) (net : Net) (i : Nat)
    (s : ClientState) (d : Dom) :
    (handleComplete env net i s d).1.pendingDeleteId = s.pendingDeleteId := by
  cases hn : net (Request.completeTask i) <;>
    simp [handleComplete, hn, loadTasks_pending]

/-- The effect trace of `confirmDelete` when the gate is armed with a
non-zero id. -/
theorem confirmDelete_effects (env : RenderEnv) (net : Net) (i : Nat)
    (s : ClientState) (d : Dom) (hp : s.pendingDeleteId = some i) (hi : i ≠ 0) :
    (confirmDelete env net s d).2.2 =
      (match net (Request.deleteTask i) with
       | .ok _ =>
          Eff.request (Request.deleteTask i) ::
          Eff.toast "Task deleted." "info" ::
          Eff.clearList ::
          Eff.request (Request.getTasks
            (apiGetTasksQuery s.activeStatus s.activePriority)) ::
          (match net (Request.getTasks
              (apiGetTasksQuery s.activeStatus s.activePriority)) with
           | .ok data =>
              [Eff.render (String.join ((filteredTasks s.activeStatus s.activePriority
                (data.getD [])).map (buildCard env)))]
           | .error msg => [Eff.toast ("Failed to load tasks: " ++ msg) "error"])
       | .error msg =>
          [Eff.request (Request.deleteTask i),
           Eff.toast ("Could not delete task: " ++ msg) "error"]) := by
  cases hn : net (Request.deleteTask i) <;>
    simp [confirmDelete, hp, hi, hn, loadTasks_effects]

/-- After `confirmDelete` with an armed non-zero id the gate is idle,
whatever the network outcome. -/
theorem confirmDelete_pending (env : RenderEnv) (net : Net) (i : Nat)
    (s : ClientState) (d : Dom) (hp : s.pendingDeleteId = some i) (hi : i ≠ 0) :
    (confirmDelete env net s d).1.pendingDeleteId = none := by
  cases hn : net (Request.deleteTask i) <;>
    simp [confirmDelete, hp, hi, hn, loadTasks_pending]

/-- Lemma: `handleEdit` preserves the delete gate. -/
theorem handleEdit_pending (env : RenderEnv) (i : Nat) (s : ClientState) (d : Dom) :
    (handleEdit env i s d).1.pendingDeleteId = s.pendingDeleteId := by
  cases hf : s.tasks.find? (fun t => t.id == i) <;>
    simp [handleEdit, hf, populateForm]

/-- A single-character replacement pass distributes over append. -/
theorem replaceChar_append (c : Char) (r : List Char) (a b : List Char) :
    replaceChar c r (a ++ b) = replaceChar c r a ++ replaceChar c r b := by
  induction a with
  | nil => simp [replaceChar]
  | cons x xs ih => simp [replaceChar, ih]

/-- The escape pipeline distributes over append. -/
theorem escHtmlList_append (a b : List Char) :
    escHtmlList (a ++ b) = escHtmlList a ++ escHtmlList b := by
  simp [escHtmlList, replaceChar_append]

/-- The chained replacements act per character: later passes never rewrite the
output of an earlier pass, so the pipeline equals mapping `escChar`. -/
theorem escHtmlList_cons (x : Char) (xs : List Char) :
    escHtmlList (x :: xs) = escChar x ++ escHtmlList xs := by
  have h : x :: xs = [x] ++ xs := rfl
  rw [h, escHtmlList_append]
  congr 1
  by_cases h1 : x = '&'
  · subst h1; rfl
  by_cases h2 : x = '<'
  · subst h2; rfl
  by_cases h3 : x = '>'
  · subst h3; rfl
  by_cases h4 : x = quotCh
  · subst h4; rfl
  by_cases h5 : x = aposCh
  · subst h5; rfl
  simp [escHtmlList, replaceChar, escChar, h1, h2, h3, h4, h5]

/-- No escape-table entry contains a raw special character. -/
theorem rawSpecial_escChar (x : Char) :
    (escChar x).all (fun c => !rawSpecial c) = true := by
  by_cases h1 : x = '&'
  · subst h1; rfl
  by_cases h2 : x = '<'
  · subst h2; rfl
  by_cases h3 : x = '>'
  · subst h3; rfl
  by_cases h4 : x = quotCh
  · subst h4; rfl
  by_cases h5 : x = aposCh
  · subst h5; rfl
  have hr : rawSpecial x = false := by
    rw [rawSpecial,
      beq_eq_false_iff_ne.mpr h2, beq_eq_false_iff_ne.mpr h3,
      beq_eq_false_iff_ne.mpr h4, beq_eq_false_iff_ne.mpr h5]
    rfl
  simp [escChar, h1, h2, h3, h4, h5, hr]

/-- The escaped output never contains a raw `<`, `>`, `"` or apostrophe. -/
theorem rawSpecial_escHtmlList (l : List Char) :
    (escHtmlList l).all (fun c => !rawSpecial c) = true := by
  induction l with
  | nil => rfl
  | cons x xs ih =>
    rw [escHtmlList_cons, List.all_append, rawSpecial_escChar x, ih]
    rfl

/-- A list starts with itself followed by anything. -/
theorem startsWithL_self_append (p r : List Char) :
    startsWithL p (p ++ r) = true := by
  induction p with
  | nil => rfl
  | cons x xs ih => simp [startsWithL, ih]

/-- Lemma: `ampOkB` ignores a leading non-ampersand character. -/
theorem ampOkB_cons_ne (x : Char) (xs : List Char) (hx : (x == '&') = false) :
    ampOkB (x :: xs) = ampOkB xs := by
  simp [ampOkB, bne, hx]

/-- Lemma: `ampOkB` ignores an ampersand-free block. -/
theorem ampOkB_append_no_amp (a r : List Char)
    (ha : ∀ c ∈ a, (c == '&') = false) :
    ampOkB (a ++ r) = ampOkB r := by
  induction a with
  | nil => rfl
  | cons x xs ih =>
    rw [List.cons_append, ampOkB_cons_ne x _ (ha x (List.mem_cons_self x xs))]
    exact ih fun c hc => ha c (List.mem_cons_of_mem x hc)

/-- Prepending a whole entity preserves `ampOkB`. -/
theorem ampOkB_entity_append (tail r : List Char)
    (hmem : ('&' :: tail) ∈ htmlEntities)
    (htail : ∀ c ∈ tail, (c == '&') = false)
    (h : ampOkB r = true) :
    ampOkB (('&' :: tail) ++ r) = true := by
  have hany : (htmlEntities.any fun e => startsWithL e ('&' :: (tail ++ r))) = true := by
    refine List.any_eq_true.mpr ⟨'&' :: tail, hmem, ?_⟩
    have he : '&' :: (tail ++ r) = ('&' :: tail) ++ r := rfl
    rw [he]
    exact startsWithL_self_append _ _
  rw [List.cons_append]
  simp only [ampOkB]
  rw [hany, ampOkB_append_no_amp tail r htail, h]
  simp

/-- Prepending one escaped character preserves `ampOkB`. -/
theorem ampOkB_escChar_append (x : Char) (r : List Char) (h : ampOkB r = true) :
    ampOkB (escChar x ++ r) = true := by
  by_cases h1 : x = '&'
  · subst h1
    exact ampOkB_entity_append _ r (by simp [htmlEntities]) (by decide) h
  by_cases h2 : x = '<'
  · subst h2
    exact ampOkB_entity_append _ r (by simp [htmlEntities]) (by decide) h
  by_cases h3 : x = '>'
  · subst h3
    exact ampOkB_entity_append _ r (by simp [htmlEntities]) (by decide) h
  by_cases h4 : x = quotCh
  · subst h4
    exact ampOkB_entity_append _ r (by simp [htmlEntities]) (by decide) h
  by_cases h5 : x = aposCh
  · subst h5
    exact ampOkB_entity_append _ r (by simp [htmlEntities]) (by decide) h
  have hx : (x == '&') = false := by
    simp [h1]
  rw [show escChar x = [x] by simp [escChar, h1, h2, h3, h4, h5]]
  rw [List.singleton_append, ampOkB_cons_ne x r hx]
  exact h

/-- Every ampersand in escaped output starts one of the five entities. -/
theorem ampOkB_escHtmlList (l : List Char) :
    ampOkB (escHtmlList l) = true := by
  induction l with
  | nil => rfl
  | cons x xs ih =>
    rw [escHtmlList_cons]
    exact ampOkB_escChar_append x _ ih

/-- Lemma: `respOk` spelled as a proposition about the status code. -/
theorem respOk_iff (r : HttpResp) :
    r.respOk = true ↔ (200 ≤ r.status ∧ r.status ≤ 299) := by
  simp [HttpResp.respOk]

/-! ### Claim theorems -/

/-- C1: for every task list and every pair of active filters, the render-time
view derivation (`state.tasks.filter(...)` in `renderTaskList`) returns
exactly the subsequence of the in-memory tasks matching both filters — `all`
matches unconditionally, otherwise the corresponding field must equal the
filter value — preserving the original relative order. -/
theorem claim_C1_deriveView (fs fp : String) (ts : List Task) :
    filteredTasks fs fp ts = ts.filter (fun t => decide (specMatches fs fp t)) ∧
    List.Sublist (filteredTasks fs fp ts) ts ∧
    ∀ t : Task, t ∈ filteredTasks fs fp ts ↔ (t ∈ ts ∧ specMatches fs fp t) := by
  refine ⟨?_, List.filter_sublist _, ?_⟩
  · unfold filteredTasks
    apply List.filter_congr
    intro t _
    rw [Bool.eq_iff_iff]
    simp [taskMatchesFilters, specMatches]
  · intro t
    simp [filteredTasks, List.mem_filter, taskMatchesFilters, specMatches]

/-- C4: submitting the form with a title that is empty after trimming
performs zero network calls (no effects at all), leaves the whole client
state — in particular mode and `editingId` — unchanged, marks the title
field invalid (with the error text shown), and focuses it. -/
theorem claim_C4_empty_title (env : RenderEnv) (net : Net) (s : ClientState) (d : Dom)
    (h : jsTrim d.titleValue = "") :
    handleFormSubmit env net s d =
      (s, { d with titleInvalid := true, titleErrorShown := true, titleFocused := true },
        []) := by
  simp [handleFormSubmit, readForm, h]

/-- Witness for C4 at a whitespace-only title. -/
theorem claim_C4_empty_title_witness :
    handleFormSubmit exEnv netOkEmpty exState ({ dom0 with titleValue := "   " }) =
      (exState,
       ({ dom0 with
           titleValue := "   ", titleInvalid := true, titleErrorShown := true,
           titleFocused := true }),
       []) :=
  claim_C4_empty_title exEnv netOkEmpty exState ({ dom0 with titleValue := "   " })
    (by decide)

/-- C5 fails on the code: a 2xx response with a malformed JSON body does not
make the wrapper fail — `res.json().catch(() => (\x7b\x7d))` substitutes the empty
object and `fetchJSON` returns it successfully. -/
theorem claim_C5_fetch_counterexample :
    (HttpResp.mk 200 "OK" none).jsonBody = none ∧
    (fetchJSON (HttpResp.mk 200 "OK" none)).isFailure = false ∧
    fetchJSON (HttpResp.mk 200 "OK" none) = FetchOutcome.success JsonObj.empty := by
  decide

/-- C5 (amended): the wrapper fails exactly when the HTTP status is non-2xx —
a malformed body alone never causes failure; on a 2xx status it returns the
decoded body, with a malformed body decoded as the empty object; a failure
message is the server-provided `detail` when present and non-empty, else
`HTTP <status>: <statusText>`. -/
theorem claim_C5_fetch (r : HttpResp) :
    ((fetchJSON r).isFailure = true ↔ ¬(200 ≤ r.status ∧ r.status ≤ 299)) ∧
    ((200 ≤ r.status ∧ r.status ≤ 299) →
        fetchJSON r = FetchOutcome.success (r.jsonBody.getD JsonObj.empty)) ∧
    (∀ m, fetchJSON r = FetchOutcome.failure m →
      ((∃ dtl, (r.jsonBody.getD JsonObj.empty).detail = some dtl ∧ dtl ≠ "" ∧ m = dtl) ∨
       (m = httpGenericMsg r ∧
         ∀ dtl, (r.jsonBody.getD JsonObj.empty).detail = some dtl → dtl = ""))) := by
  refine ⟨?_, ?_, ?_⟩
  · by_cases hok : r.respOk = true
    · simp [fetchJSON, hok, FetchOutcome.isFailure, (respOk_iff r).mp hok]
    · have hst : ¬(200 ≤ r.status ∧ r.status ≤ 299) := fun hc => hok ((respOk_iff r).mpr hc)
      simp only [fetchJSON, if_neg hok]
      simp [FetchOutcome.isFailure, hst]
  · intro hst
    have hok : r.respOk = true := (respOk_iff r).mpr hst
    simp [fetchJSON, hok]
  · intro m hm
    by_cases hok : r.respOk = true
    · simp [fetchJSON, hok] at hm
    · simp only [fetchJSON, if_neg hok] at hm
      cases hd : (r.jsonBody.getD JsonObj.empty).detail with
      | none =>
          rw [hd] at hm
          simp at hm
          exact Or.inr ⟨hm.symm, fun dtl hdtl => by cases hdtl⟩
      | some dtl =>
          rw [hd] at hm
          by_cases hde : dtl = ""
          · simp [hde] at hm
            refine Or.inr ⟨hm.symm, fun dtl2 hdtl => ?_⟩
            cases hdtl
            exact hde
          · simp [hde] at hm
            exact Or.inl ⟨dtl, rfl, hde, hm.symm⟩

/-- Witness for C5 (amended): a well-formed 2xx body is returned as decoded. -/
theorem claim_C5_fetch_witness :
    fetchJSON (HttpResp.mk 200 "OK" (some ⟨none, [("total", "3")]⟩)) =
      FetchOutcome.success ⟨none, [("total", "3")]⟩ :=
  (claim_C5_fetch (HttpResp.mk 200 "OK" (some ⟨none, [("total", "3")]⟩))).2.1
    (by decide)

/-- C8: on the filter domains, the list request carries the `status` query
parameter iff the active status filter is not `all` (with the filter value as
the parameter value), likewise for `priority`, and `all` itself is never sent. -/
theorem claim_C8_filters (s p : String)
    (hs : s ∈ ["all", "todo", "in_progress", "done"])
    (hp : p ∈ ["all", "low", "medium", "high"]) :
    ((s ≠ "all") ↔ ∃ v, ("status", v) ∈ apiGetTasksQuery s p) ∧
    (∀ v, ("status", v) ∈ apiGetTasksQuery s p → v = s) ∧
    (("status", "all") ∉ apiGetTasksQuery s p) ∧
    ((p ≠ "all") ↔ ∃ v, ("priority", v) ∈ apiGetTasksQuery s p) ∧
    (∀ v, ("priority", v) ∈ apiGetTasksQuery s p → v = p) ∧
    (("priority", "all") ∉ apiGetTasksQuery s p) := by
  fin_cases hs <;> fin_cases hp <;> simp [apiGetTasksQuery]

/-- Witness for C8 at `status=todo`, `priority=high`. -/
theorem claim_C8_filters_witness :
    (("status", "all") ∉ apiGetTasksQuery "todo" "high") ∧
    (("priority", "high") ∈ apiGetTasksQuery "todo" "high") :=
  ⟨(claim_C8_filters "todo" "high" (by decide) (by decide)).2.2.1, by decide⟩

/-- C10: `escHtml` output contains no raw `<`, `>`, `"` or apostrophe and
every `&` in it starts one of the five produced entities; a falsy (empty)
input yields the empty string; and the user-controlled strings interpolated
into markup — the task title and description in `buildCard`, the message in
`showToast` — pass through `escHtml` (the card template and toast prefix are
independent of the raw title/description/message). -/
theorem claim_C10_escaping :
    (∀ s : String, ((escHtml s).toList.all fun c => !rawSpecial c) = true) ∧
    (∀ s : String, ampOkB (escHtml s).toList = true) ∧
    escHtml "" = "" ∧
    (∀ (env : RenderEnv) (t : Task),
      buildCard env t = cardBody env t (escHtml t.title)
        (match t.description with
         | some dsc =>
            if dsc = "" then ""
            else "<p class=\"task-description\">" ++ escHtml dsc ++ "</p>\n"
         | none => "")) ∧
    (∀ (env : RenderEnv) (t : Task) (a b ti : String) (de : Option String),
      cardBody env t a b =
        cardBody env { t with title := ti, description := de } a b) ∧
    (∀ ty m : String, toastHtml ty m =
      "<span class=\"toast-icon\">" ++ toastIcon ty ++ "</span>" ++ escHtml m) := by
  refine ⟨?_, ?_, rfl, fun env t => rfl, fun env t a b ti de => rfl, fun ty m => rfl⟩
  · intro s
    by_cases hs : s = ""
    · subst hs; rfl
    · simp only [escHtml, if_neg hs]
      exact rawSpecial_escHtmlList s.toList
  · intro s
    by_cases hs : s = ""
    · subst hs; rfl
    · simp only [escHtml, if_neg hs]
      exact ampOkB_escHtmlList s.toList

/-- C2: across every event the application can receive, a delete request is
issued only by the confirm button of the modal gate, and the id it carries is
exactly the id armed in `pendingDeleteId` when the gate entered Confirming;
cancelling the modal produces zero effects (in particular zero delete
requests) and leaves the task collection unchanged. -/
theorem claim_C2_delete_gate (env : RenderEnv) (net : Net) (e : Event)
    (s : ClientState) (d : Dom) (i : Nat) :
    (Eff.request (Request.deleteTask i) ∈ (dispatch env net e s d).2.2 →
        e = Event.modalConfirm ∧ s.pendingDeleteId = some i) ∧
    ((dispatch env net Event.modalCancel s d).2.2 = [] ∧
     (dispatch env net Event.modalCancel s d).1.tasks = s.tasks) := by
  constructor
  · intro hmem
    cases e with
    | formSubmit =>
        exfalso
        simp only [dispatch] at hmem
        rcases hop : (readForm env d).1 with _ | payload
        · unfold handleFormSubmit at hmem
          rcases hr : readForm env d with ⟨op, d1⟩
          rw [hr] at hmem hop
          simp at hop
          subst hop
          simp at hmem
        · rw [handleFormSubmit_effects env net s d payload hop] at hmem
          cases hed : s.editingId <;>
            cases hn : net (submitRequest s payload) <;>
              cases hg : net (Request.getTasks
                (apiGetTasksQuery s.activeStatus s.activePriority)) <;>
                simp_all [submitRequest]
    | cancelEdit =>
        simp [dispatch, resetForm, clearValidation] at hmem
    | completeClick id =>
        exfalso
        simp only [dispatch] at hmem
        rw [handleComplete_effects] at hmem
        cases hn : net (Request.completeTask id) <;>
          cases hg : net (Request.getTasks
            (apiGetTasksQuery s.activeStatus s.activePriority)) <;>
            simp_all
    | editClick id =>
        exfalso
        simp only [dispatch] at hmem
        cases hf : s.tasks.find? (fun t => t.id == id) <;>
          simp_all [handleEdit, populateForm]
    | deleteClick id =>
        simp [dispatch, openDeleteModal] at hmem
    | statusPill v =>
        simp [dispatch, handleStatusPillClick, renderTaskList] at hmem
    | priorityChange v =>
        simp [dispatch, handlePriorityFilterChange, renderTaskList] at hmem
    | refreshClick =>
        exfalso
        simp only [dispatch] at hmem
        exact Request.noConfusion (loadTasks_request_eq env net s d _ hmem)
    | modalCancel =>
        simp [dispatch, closeDeleteModal] at hmem
    | modalConfirm =>
        refine ⟨rfl, ?_⟩
        simp only [dispatch] at hmem
        cases hp : s.pendingDeleteId with
        | none => simp [confirmDelete, hp] at hmem
        | some id =>
          by_cases hz : id = 0
          · simp [confirmDelete, hp, hz] at hmem
          · rw [confirmDelete_effects env net id s d hp hz] at hmem
            cases hn : net (Request.deleteTask id) <;>
              cases hg : net (Request.getTasks
                (apiGetTasksQuery s.activeStatus s.activePriority)) <;>
                simp_all
    | overlayClick b =>
        cases b <;> simp [dispatch, closeDeleteModal] at hmem
    | escapeKey =>
        simp [dispatch, closeDeleteModal] at hmem
    | initialLoad =>
        exfalso
        simp only [dispatch] at hmem
        exact Request.noConfusion (loadTasks_request_eq env net s d _ hmem)
  · exact ⟨by simp [dispatch, closeDeleteModal], by simp [dispatch, closeDeleteModal]⟩

/-- Witness for C2: confirming a gate armed for id 5 is recognised as the
(only) source of the delete request for 5. -/
theorem claim_C2_delete_gate_witness :
    Event.modalConfirm = Event.modalConfirm ∧
    ({ exState with pendingDeleteId := some 5 } : ClientState).pendingDeleteId = some 5 :=
  (claim_C2_delete_gate exEnv netOkEmpty Event.modalConfirm
      ({ exState with pendingDeleteId := some 5 }) dom0 5).1 (by decide)

/-- C9: the gate enters Confirming only through an explicit delete request
(the delete button's `openDeleteModal`), and every exit path — cancel button,
click on the overlay, the Escape key, or the resolution of a confirmed
delete, successful or not — returns it to Idle (`pendingDeleteId` absent). -/
theorem claim_C9_modal_gate (env : RenderEnv) (net : Net) (e : Event)
    (s : ClientState) (d : Dom) (i : Nat) :
    (s.pendingDeleteId ≠ some i →
      (dispatch env net e s d).1.pendingDeleteId = some i →
      e = Event.deleteClick i) ∧
    ((dispatch env net Event.modalCancel s d).1.pendingDeleteId = none) ∧
    ((dispatch env net (Event.overlayClick true) s d).1.pendingDeleteId = none) ∧
    ((dispatch env net Event.escapeKey s d).1.pendingDeleteId = none) ∧
    (∀ j, s.pendingDeleteId = some j → j ≠ 0 →
      (dispatch env net Event.modalConfirm s d).1.pendingDeleteId = none) := by
  refine ⟨?_, by simp [dispatch, closeDeleteModal], by simp [dispatch, closeDeleteModal],
    by simp [dispatch, closeDeleteModal], fun j hp hz => ?_⟩
  · intro hne hsome
    cases e with
    | formSubmit =>
        rw [show (dispatch env net Event.formSubmit s d) = handleFormSubmit env net s d
          from rfl, handleFormSubmit_pending] at hsome
        exact absurd hsome hne
    | cancelEdit =>
        simp [dispatch, resetForm, clearValidation] at hsome
        exact absurd hsome hne
    | completeClick id =>
        rw [show (dispatch env net (Event.completeClick id) s d) =
          handleComplete env net id s d from rfl, handleComplete_pending] at hsome
        exact absurd hsome hne
    | editClick id =>
        rw [show (dispatch env net (Event.editClick id) s d) =
          handleEdit env id s d from rfl, handleEdit_pending] at hsome
        exact absurd hsome hne
    | deleteClick id =>
        simp [dispatch, openDeleteModal] at hsome
        rw [hsome]
    | statusPill v =>
        simp [dispatch, handleStatusPillClick, renderTaskList] at hsome
        exact absurd hsome hne
    | priorityChange v =>
        simp [dispatch, handlePriorityFilterChange, renderTaskList] at hsome
        exact absurd hsome hne
    | refreshClick =>
        rw [show (dispatch env net Event.refreshClick s d) = loadTasks env net s d
          from rfl, loadTasks_pending] at hsome
        exact absurd hsome hne
    | modalCancel =>
        simp [dispatch, closeDeleteModal] at hsome
    | modalConfirm =>
        exfalso
        cases hp : s.pendingDeleteId with
        | none =>
            simp [dispatch, confirmDelete, hp] at hsome
        | some id =>
            by_cases hz : id = 0
            · simp [dispatch, confirmDelete, hp, hz] at hsome
              exact hne (by rw [hp, hz, hsome])
            · rw [show (dispatch env net Event.modalConfirm s d) =
                confirmDelete env net s d from rfl,
                confirmDelete_pending env net id s d hp hz] at hsome
              cases hsome
    | overlayClick b =>
        cases b
        · simp [dispatch] at hsome
          exact absurd hsome hne
        · simp [dispatch, closeDeleteModal] at hsome
    | escapeKey =>
        simp [dispatch, closeDeleteModal] at hsome
    | initialLoad =>
        rw [show (dispatch env net Event.initialLoad s d) = loadTasks env net s d
          from rfl, loadTasks_pending] at hsome
        exact absurd hsome hne
  · exact confirmDelete_pending env net j s d hp hz

/-- Witness for C9: confirming a gate armed for id 5 leaves the gate idle. -/
theorem claim_C9_modal_gate_witness :
    (dispatch exEnv netOkEmpty Event.modalConfirm
        ({ exState with pendingDeleteId := some 5 }) dom0).1.pendingDeleteId = none :=
  (claim_C9_modal_gate exEnv netOkEmpty Event.modalConfirm
      ({ exState with pendingDeleteId := some 5 }) dom0 5).2.2.2.2 5 rfl (by decide)

/-- C3 fails on the code in its ordering: on a successful submission the
success toast is shown immediately after the request settles, before the
controller reset and the snapshot reload — not after them.  Here a concrete
successful edit submission produces the success toast at position 1 of the
trace, strictly before the reload request at position 3. -/
theorem claim_C3_submit_counterexample :
    (handleFormSubmit exEnv netOkEmpty
        ({ exState with editingId := some 1 })
        ({ dom0 with titleValue := "T" })).2.2 =
      [Eff.request (Request.updateTask 1 ⟨"T", none, "medium", none⟩),
       Eff.toast "Task updated successfully! ✓" "success",
       Eff.clearList,
       Eff.request (Request.getTasks []),
       Eff.render ""] ∧
    ((handleFormSubmit exEnv netOkEmpty
        ({ exState with editingId := some 1 })
        ({ dom0 with titleValue := "T" })).2.2.take 2 =
      [Eff.request (Request.updateTask 1 ⟨"T", none, "medium", none⟩),
       Eff.toast "Task updated successfully! ✓" "success"]) ∧
    Eff.request (Request.getTasks []) ∉
      ((handleFormSubmit exEnv netOkEmpty
        ({ exState with editingId := some 1 })
        ({ dom0 with titleValue := "T" })).2.2.take 2) ∧
    Eff.request (Request.getTasks []) ∈
      (handleFormSubmit exEnv netOkEmpty
        ({ exState with editingId := some 1 })
        ({ dom0 with titleValue := "T" })).2.2 := by
  decide

/-- C3 (amended): for every valid submission exactly one mutation request is
issued — an update for the editing id in Edit mode, a create in Create mode;
on success the success toast is emitted first, then the controller resets to
Create (editingId cleared, fields cleared) and the full snapshot reload is
triggered; on failure the controller state is unchanged and the failure is
notified with the error message. -/
theorem claim_C3_submit (env : RenderEnv) (net : Net) (s : ClientState) (d : Dom)
    (payload : Payload) (hrf : (readForm env d).1 = some payload) :
    ((handleFormSubmit env net s d).2.2.filter isMutationReq =
        [Eff.request (submitRequest s payload)]) ∧
    (∀ r, net (submitRequest s payload) = Except.ok r →
        (handleFormSubmit env net s d).1.editingId = none ∧
        (handleFormSubmit env net s d).2.1.titleValue = "" ∧
        (handleFormSubmit env net s d).2.1.descriptionValue = "" ∧
        (handleFormSubmit env net s d).2.1.dueDateValue = "" ∧
        (∃ post, (handleFormSubmit env net s d).2.2 =
          Eff.request (submitRequest s payload) ::
          Eff.toast (submitOkMsg s) "success" ::
          Eff.clearList ::
          Eff.request (Request.getTasks
            (apiGetTasksQuery s.activeStatus s.activePriority)) ::
          post)) ∧
    (∀ m, net (submitRequest s payload) = Except.error m →
        (handleFormSubmit env net s d).1 = s ∧
        (handleFormSubmit env net s d).2.2 =
          [Eff.request (submitRequest s payload),
           Eff.toast ("Error: " ++ m) "error"]) := by
  refine ⟨?_, fun r hok => ?_, fun m herr => ?_⟩
  · rw [handleFormSubmit_effects env net s d payload hrf]
    cases hed : s.editingId <;>
      cases hn : net (submitRequest s payload) <;>
        cases hg : net (Request.getTasks
          (apiGetTasksQuery s.activeStatus s.activePriority)) <;>
          simp_all [isMutationReq, submitRequest]
  · obtain ⟨h1, h2, h3, h4⟩ := handleFormSubmit_dom_ok env net s d payload r hrf hok
    refine ⟨?_, h1, h2, h3, ?_⟩
    · rw [handleFormSubmit_state env net s d payload hrf, hok]
      cases hg : net (Request.getTasks
        (apiGetTasksQuery s.activeStatus s.activePriority)) <;> simp
    · exact ⟨_, by rw [handleFormSubmit_effects env net s d payload hrf, hok]⟩
  · constructor
    · rw [handleFormSubmit_state env net s d payload hrf, herr]
    · rw [handleFormSubmit_effects env net s d payload hrf, herr]

/-- Witness for C3 (amended): a concrete valid create submission issues
exactly one create request. -/
theorem claim_C3_submit_witness :
    (handleFormSubmit exEnv netOkEmpty exState
        ({ dom0 with titleValue := "Buy milk" })).2.2.filter isMutationReq =
      [Eff.request (submitRequest exState ⟨"Buy milk", none, "medium", none⟩)] :=
  (claim_C3_submit exEnv netOkEmpty exState ({ dom0 with titleValue := "Buy milk" })
    ⟨"Buy milk", none, "medium", none⟩ (by decide)).1

/-- C6 fails on the code: the reload triggered by a per-item mutation also
clears the list area at its start (`loadTasks` always calls
`setLoading(true)`), so the stale list is not left visible until the reload
completes.  A concrete confirmed delete emits a clear-list effect. -/
theorem claim_C6_loading_counterexample :
    Eff.clearList ∈ (dispatch exEnv netOkEmpty Event.modalConfirm
        ({ exState with pendingDeleteId := some 5 }) dom0).2.2 := by
  decide

/-- C6 (amended): every load — initial, manual refresh, or the reload that
follows a mutation — clears the list area as its first step; a per-item
mutation issues its own request first without clearing, so the stale list
stays visible only while the mutation call itself is in flight, and is
cleared when its follow-up reload begins (on mutation failure no reload
happens and nothing is cleared). -/
theorem claim_C6_loading (env : RenderEnv) (net : Net) (s : ClientState) (d : Dom)
    (i : Nat) :
    ((loadTasks env net s d).2.2.head? = some Eff.clearList) ∧
    ((handleComplete env net i s d).2.2.head? =
        some (Eff.request (Request.completeTask i))) ∧
    (∀ r, net (Request.completeTask i) = Except.ok r →
      ∃ post, (handleComplete env net i s d).2.2 =
        Eff.request (Request.completeTask i) ::
        Eff.toast "Task marked as done! 🎉" "success" ::
        Eff.clearList ::
        Eff.request (Request.getTasks
          (apiGetTasksQuery s.activeStatus s.activePriority)) :: post) ∧
    (∀ m, net (Request.completeTask i) = Except.error m →
      Eff.clearList ∉ (handleComplete env net i s d).2.2) ∧
    (s.pendingDeleteId = some i → i ≠ 0 →
      (confirmDelete env net s d).2.2.head? =
        some (Eff.request (Request.deleteTask i)) ∧
      (∀ r, net (Request.deleteTask i) = Except.ok r →
        ∃ post, (confirmDelete env net s d).2.2 =
          Eff.request (Request.deleteTask i) ::
          Eff.toast "Task deleted." "info" ::
          Eff.clearList ::
          Eff.request (Request.getTasks
            (apiGetTasksQuery s.activeStatus s.activePriority)) :: post)) ∧
    (∀ payload, (readForm env d).1 = some payload →
      (handleFormSubmit env net s d).2.2.head? =
        some (Eff.request (submitRequest s payload))) := by
  refine ⟨?_, ?_, fun r hok => ?_, fun m herr => ?_, fun hp hz => ⟨?_, fun r hok => ?_⟩,
    fun payload hrf => ?_⟩
  · rw [loadTasks_effects]
    rfl
  · rw [handleComplete_effects]
    cases hn : net (Request.completeTask i) <;> rfl
  · exact ⟨_, by rw [handleComplete_effects, hok]⟩
  · rw [handleComplete_effects, herr]
    simp
  · rw [confirmDelete_effects env net i s d hp hz]
    cases hn : net (Request.deleteTask i) <;> rfl
  · exact ⟨_, by rw [confirmDelete_effects env net i s d hp hz, hok]⟩
  · rw [handleFormSubmit_effects env net s d payload hrf]
    cases hn : net (submitRequest s payload) <;> rfl

/-- Witness for C6 (amended): a confirmed delete for id 5 issues the delete
request as its first effect. -/
theorem claim_C6_loading_witness :
    (confirmDelete exEnv netOkEmpty
        ({ exState with pendingDeleteId := some 5 }) dom0).2.2.head? =
      some (Eff.request (Request.deleteTask 5)) :=
  ((claim_C6_loading exEnv netOkEmpty ({ exState with pendingDeleteId := some 5 })
      dom0 5).2.2.2.2.1 rfl (by decide)).1

/-- C7 fails on the code: when a mutation succeeds but the follow-up reload
fails, the list area has already been cleared by `setLoading(true)` and the
failure path never restores it — the displayed list ends up empty, not
exactly as it was before the action.  Concretely, completing task 7 against
a network whose list endpoint fails wipes a previously displayed list. -/
theorem claim_C7_failure_counterexample :
    netListFails (Request.getTasks []) = Except.error "boom" ∧
    netListFails (Request.completeTask 7) = Except.ok none ∧
    ({ dom0 with taskListHtml := "X" } : Dom).taskListHtml = "X" ∧
    (handleComplete exEnv netListFails 7 exState
        ({ dom0 with taskListHtml := "X" })).2.1.taskListHtml = "" :=
  ⟨rfl, rfl, rfl, by decide⟩

/-- C7 (amended): if validation or the mutation request itself fails, the
reload and reset are skipped, the failure is notified, and the displayed
list is untouched; but if the mutation succeeds and the follow-up reload
fails, the reset has already happened and the list area is left cleared
(empty), with the load failure notified. -/
theorem claim_C7_failure (env : RenderEnv) (net : Net) (s : ClientState) (d : Dom)
    (i : Nat) :
    (jsTrim d.titleValue = "" →
      (handleFormSubmit env net s d).1 = s ∧
      (handleFormSubmit env net s d).2.2 = [] ∧
      (handleFormSubmit env net s d).2.1.taskListHtml = d.taskListHtml) ∧
    (∀ payload m, (readForm env d).1 = some payload →
      net (submitRequest s payload) = Except.error m →
      (handleFormSubmit env net s d).1 = s ∧
      (handleFormSubmit env net s d).2.1.taskListHtml = d.taskListHtml ∧
      Eff.toast ("Error: " ++ m) "error" ∈ (handleFormSubmit env net s d).2.2 ∧
      Eff.clearList ∉ (handleFormSubmit env net s d).2.2 ∧
      (∀ q, Eff.request (Request.getTasks q) ∉ (handleFormSubmit env net s d).2.2)) ∧
    (∀ m, net (Request.completeTask i) = Except.error m →
      handleComplete env net i s d =
        (s, d, [Eff.request (Request.completeTask i),
                Eff.toast ("Could not complete task: " ++ m) "error"])) ∧
    (∀ payload r m, (readForm env d).1 = some payload →
      net (submitRequest s payload) = Except.ok r →
      net (Request.getTasks (apiGetTasksQuery s.activeStatus s.activePriority)) =
        Except.error m →
      (handleFormSubmit env net s d).2.1.taskListHtml = "" ∧
      (handleFormSubmit env net s d).1.editingId = none ∧
      Eff.toast ("Failed to load tasks: " ++ m) "error" ∈
        (handleFormSubmit env net s d).2.2) ∧
    (∀ r m, net (Request.completeTask i) = Except.ok r →
      net (Request.getTasks (apiGetTasksQuery s.activeStatus s.activePriority)) =
        Except.error m →
      (handleComplete env net i s d).2.1.taskListHtml = "" ∧
      Eff.toast ("Failed to load tasks: " ++ m) "error" ∈
        (handleComplete env net i s d).2.2) := by
  refine ⟨fun h => ?_, fun payload m hrf herr => ?_, fun m herr => ?_,
    fun payload r m hrf hok hg => ?_, fun r m hok hg => ?_⟩
  · simp [handleFormSubmit, readForm, h]
  · refine ⟨?_, ?_, ?_, ?_, ?_⟩
    · rw [handleFormSubmit_state env net s d payload hrf, herr]
    · rw [handleFormSubmit_dom_err env net s d payload m hrf herr]
    · rw [handleFormSubmit_effects env net s d payload hrf, herr]
      simp
    · rw [handleFormSubmit_effects env net s d payload hrf, herr]
      simp
    · intro q
      rw [handleFormSubmit_effects env net s d payload hrf, herr]
      cases hed : s.editingId <;> simp_all [submitRequest]
  · exact handleComplete_err env net i s d m herr
  · obtain ⟨h1, h2, h3, h4⟩ := handleFormSubmit_dom_ok env net s d payload r hrf hok
    rw [hg] at h4
    refine ⟨h4, ?_, ?_⟩
    · rw [handleFormSubmit_state env net s d payload hrf, hok, hg]
    · rw [handleFormSubmit_effects env net s d payload hrf, hok, hg]
      simp
  · constructor
    · have : (handleComplete env net i s d).2.1 = (loadTasks env net s d).2.1 := by
        simp [handleComplete, hok]
      rw [this, loadTasks_dom_html, hg]
    · rw [handleComplete_effects, hok, hg]
      simp

/-- Witness for C7 (amended): a failed complete request leaves state, DOM and
list untouched apart from the two trace entries. -/
theorem claim_C7_failure_witness :
    handleComplete exEnv netCompleteFails 7 exState dom0 =
      (exState, dom0,
       [Eff.request (Request.completeTask 7),
        Eff.toast ("Could not complete task: " ++ "down") "error"]) :=
  (claim_C7_failure exEnv netCompleteFails exState dom0 7).2.2.1 "down" rfl

end TaskFlow
